import Mathlib

/-!
Verification development for the Honeypot repository.

This file gives a shallow embedding, in Lean 4, of the two cores of the
repository: the deterministic text-intelligence extraction pipeline
(`src/intelligence/validators.py`, `src/intelligence/extractors.py`,
`src/agents/investigator_agent.py`) and the per-session conversation-state
engine (`src/agents/session_manager.py`), together with the coordinator
cycle (`src/agents/orchestrator.py`).

Conventions of the embedding:
- Python strings scanned by the extractors are modelled as `List Char`;
  all source texts involved are ASCII, so the ASCII behaviour of the
  Python string/regex operations is what is embedded.
- Python `set` objects are modelled as `Finset String`; sorted views are
  produced only at the read boundary, as in the source.
- Python dicts (the per-session `intelligence` dict and the `new_intel`
  argument) are modelled as association lists in insertion order.
- The session store (`SessionManager.sessions`) is modelled as a function
  `String → Option Session`; every mutating operation returns the new
  store.  The `threading.Lock` held around each operation makes each
  public operation atomic; the embedding models exactly the sequential
  semantics of each operation.
- The regular expressions of `PATTERNS` are embedded as dedicated
  matchers implementing the Python `re` backtracking semantics of each
  concrete pattern, with `re.finditer` modelled as a leftmost,
  non-overlapping scan that advances one character on failure.
-/

namespace Honeypot

/-! ### Character classes (ASCII semantics of the Python regex classes) -/

/-- Python regex class `\s` on the ASCII texts involved:
space, tab, newline, carriage return, vertical tab, form feed. -/
def isSpaceCh (c : Char) : Bool :=
  c = ' ' || c = '\t' || c = '\n' || c = '\r' || c = '\x0b' || c = '\x0c'

/-- The regex class `[\s-]` (also the substitution class of
`re.sub(r'[\s-]', '', m)` in `investigator_agent.py`). -/
def isSepCh (c : Char) : Bool :=
  isSpaceCh c || c = '-'

/-- Python regex class `\w` restricted to ASCII: letters, digits, underscore. -/
def isWordCh (c : Char) : Bool :=
  c.isAlphanum || c = '_'

/-! ### Substring machinery (Python `in`, `startswith`, `strip`) -/

/-- Python `s.startswith(p)` over character lists: `pyStartsWith p s` holds
iff `p` is an initial segment of `s`. -/
def pyStartsWith : List Char → List Char → Bool
  | [], _ => true
  | _ :: _, [] => false
  | p :: ps, c :: cs => p = c && pyStartsWith ps cs

/-- Python `p in s` (substring containment) over character lists. -/
def hasSubstr (p : List Char) : List Char → Bool
  | [] => pyStartsWith p []
  | c :: cs => pyStartsWith p (c :: cs) || hasSubstr p cs

/-- Python `str.isdigit()` (ASCII): non-empty and every character a digit. -/
def pyIsDigit (s : List Char) : Bool :=
  !s.isEmpty && s.all Char.isDigit

/-! ### Lexicographic sorting (Python `sorted` on lists of strings) -/

/-- Code-point lexicographic order on character lists, the order Python
`sorted` uses for `str` values. -/
def strLe : List Char → List Char → Bool
  | [], _ => true
  | _ :: _, [] => false
  | c :: cs, d :: ds => if c = d then strLe cs ds else decide (c < d)

/-- Insert into a `strLe`-sorted list. -/
def insertSorted (x : List Char) : List (List Char) → List (List Char)
  | [] => [x]
  | y :: ys => if strLe x y then x :: y :: ys else y :: insertSorted x ys

/-- Insertion sort by `strLe`. -/
def sortStrs (xs : List (List Char)) : List (List Char) :=
  xs.foldr insertSorted []

/-- Python `sorted(list(set(xs)))` for string values: deduplicate, then sort
lexicographically by code point. -/
def pySortedSet (xs : List (List Char)) : List (List Char) :=
  sortStrs xs.dedup

/-! ### Validation rules — `src/intelligence/validators.py` -/

/-- The literal ascending run checked by the bank-account validator. -/
def ascRun : List Char := "123456789".toList

/-- The literal descending run checked by the bank-account validator. -/
def descRun : List Char := "987654321".toList

/-- `is_valid_bank_account` from `src/intelligence/validators.py`
(lines 10-25): a cleaned number is valid iff it is 9-18 digits, not all
the same digit, and does not contain the literal substring `123456789`
or `987654321`. -/
def is_valid_bank_account (number : List Char) : Bool :=
  if !(decide (9 ≤ number.length) && decide (number.length ≤ 18)) || !pyIsDigit number then
    false
  else if number.dedup.length = 1 then
    false
  else if hasSubstr ascRun number || hasSubstr descRun number then
    false
  else
    true

/-! ### Keyword vocabulary — `src/intelligence/extractors.py` -/

/-- `SCAM_KEYWORDS` from `src/intelligence/extractors.py` (lines 17-29).
The source is a Python `set`; iteration order is irrelevant because the
extractor sorts its output.  Listed here in the order written in the
source literal. -/
def SCAM_KEYWORDS : List String :=
  ["urgent", "immediately", "blocked", "suspended", "verify",
   "OTP", "password", "CVV", "expire", "limited time", "act now",
   "account closed", "confirm identity", "click here", "debit", "credit",
   "transaction", "kyc", "bank", "financial", "loan", "lucky draw",
   "prize", "winning", "redeem", "cashback", "reward", "congratulations",
   "fund", "transfer", "link", "application", "form", "secret", "code",
   "security", "fraud", "alert", "problem", "issue", "restore", "validate",
   "investment", "opportunity", "profit", "money", "fee", "tax", "customs",
   "delivery", "package", "shipment", "update", "attention", "warning",
   "confirm", "personal", "information", "details", "contact", "official",
   "government", "police", "court", "arrest", "warrant", "fine", "penalty"]

/-- `InvestigatorAgent.extract_keywords` (`investigator_agent.py`
lines 72-79): lower-case the text, keep every keyword that occurs as a
substring, return the sorted deduplicated list.  Keywords stored in
upper case (`OTP`, `CVV`) are compared as written, against the lowered
text, exactly as the source does. -/
def extract_keywords (text : List Char) : List String :=
  let text_lower := text.map Char.toLower
  let found := SCAM_KEYWORDS.filter (fun k => hasSubstr k.toList text_lower)
  (pySortedSet (found.map String.toList)).map fun l => ⟨l⟩

/-! ### Regex matchers — `PATTERNS` of `src/intelligence/extractors.py`

Each concrete pattern of the `PATTERNS` dict is embedded as a matcher
`... MatchAt` returning, on success, the matched characters and the
remaining text.  `re.finditer` is embedded by the corresponding
`scan...` function: leftmost scan, emitting non-overlapping matches and
advancing one character after a failed attempt, tracking the previous
character for `\b` where the pattern needs it. -/

/-- Consume exactly `n` characters satisfying `p`; on success return them
and the rest. -/
def takeExact (p : Char → Bool) : Nat → List Char → Option (List Char × List Char)
  | 0, s => some ([], s)
  | _ + 1, [] => none
  | n + 1, c :: cs =>
    if p c then (takeExact p n cs).map (fun r => (c :: r.1, r.2)) else none

/-- Greedily consume one `[\s-]` character if present (the `[\s-]?` pieces
of the bank pattern).  Consuming is forced: the character after an
unconsumed separator could only be matched by `\d`, which fails, so the
regex backtracking is deterministic here. -/
def takeOptSep : List Char → List Char × List Char
  | [] => ([], [])
  | c :: cs => if isSepCh c then ([c], cs) else ([], c :: cs)

/-- Word boundary `\b` after a match that ends in a word character: holds
iff the rest is empty or starts with a non-word character. -/
def boundaryAfter : List Char → Bool
  | [] => true
  | c :: _ => !isWordCh c

/-- Matcher for `PATTERNS['bank_account'] = \b\d{4}[\s-]?\d{4}[\s-]?\d{4,10}\b`
at the current position.  `prevW` says whether the character before the
position is a word character (for the leading `\b`; the first pattern
character is a digit, so the boundary holds iff `prevW` is false).
The trailing `\d{4,10}\b` matches iff the full run of following digits
has length 4-10 and is followed by a non-word character or the end:
stopping the greedy `\d{4,10}` short of the run would put a digit right
after it, violating `\b`, so backtracking is again deterministic. -/
def bankMatchAt (prevW : Bool) (s : List Char) : Option (List Char × List Char) :=
  if prevW then none else
  match takeExact Char.isDigit 4 s with
  | none => none
  | some (d1, r1) =>
    let (sep1, r2) := takeOptSep r1
    match takeExact Char.isDigit 4 r2 with
    | none => none
    | some (d2, r3) =>
      let (sep2, r4) := takeOptSep r3
      let run := r4.takeWhile Char.isDigit
      let n := run.length
      if decide (4 ≤ n) && decide (n ≤ 10) && boundaryAfter (r4.drop n) then
        some (d1 ++ sep1 ++ d2 ++ sep2 ++ run, r4.drop n)
      else none

/-- Word-character status of the last character of a non-empty match,
used as the `prevW` flag when the scan resumes after the match. -/
def lastIsWord (m : List Char) (prevW : Bool) : Bool :=
  match m.getLast? with
  | some c => isWordCh c
  | none => prevW

/-- `re.finditer` driver for the bank-account pattern.  The fuel is the
text length; every step consumes at least one character, so the fuel
never runs out before the text does. -/
def scanBankAux : Nat → Bool → List Char → List (List Char)
  | 0, _, _ => []
  | _ + 1, _, [] => []
  | fuel + 1, prevW, c :: rest =>
    match bankMatchAt prevW (c :: rest) with
    | some (m, r) => m :: scanBankAux fuel (lastIsWord m prevW) r
    | none => scanBankAux fuel (isWordCh c) rest

/-- All matches of the bank-account pattern in the text. -/
def scanBank (text : List Char) : List (List Char) :=
  scanBankAux text.length false text

/-- `InvestigatorAgent.extract_bank_accounts` (`investigator_agent.py`
lines 30-37): find pattern matches, strip `[\s-]`, keep the ones passing
`is_valid_bank_account`, return the sorted deduplicated list. -/
def extract_bank_accounts (text : List Char) : List String :=
  let ms := scanBank text
  let cleaned := ms.map (fun m => m.filter (fun c => !isSepCh c))
  let valid := cleaned.filter is_valid_bank_account
  (pySortedSet valid).map fun l => ⟨l⟩

/-- Tail `[6-9]\d{9}\b` of `PATTERNS['phone']`. -/
def phoneTail (s : List Char) : Option (List Char × List Char) :=
  match s with
  | [] => none
  | c :: cs =>
    if decide ('6' ≤ c) && decide (c ≤ '9') then
      match takeExact Char.isDigit 9 cs with
      | none => none
      | some (ds, r) => if boundaryAfter r then some (c :: ds, r) else none
    else none

/-- Matcher for `PATTERNS['phone'] = (?:\+91[\s-]?)?[6-9]\d{9}\b` at the
current position.  The optional group is tried first (with its inner
`[\s-]?` greedy), falling back to the group-absent alternative, exactly
as the Python engine backtracks. -/
def phoneMatchAt (s : List Char) : Option (List Char × List Char) :=
  let withGroup : Option (List Char × List Char) :=
    match s with
    | '+' :: '9' :: '1' :: r =>
      let withSep : Option (List Char × List Char) :=
        match r with
        | c :: r2 =>
          if isSepCh c then
            (phoneTail r2).map (fun q => ('+' :: '9' :: '1' :: c :: q.1, q.2))
          else none
        | [] => none
      (withSep.orElse fun _ =>
        (phoneTail r).map (fun q => ('+' :: '9' :: '1' :: q.1, q.2)))
    | _ => none
  withGroup.orElse fun _ => phoneTail s

/-- `re.finditer` driver for the phone pattern (no leading `\b`, so no
previous-character tracking is needed). -/
def scanPhoneAux : Nat → List Char → List (List Char)
  | 0, _ => []
  | _ + 1, [] => []
  | fuel + 1, c :: rest =>
    match phoneMatchAt (c :: rest) with
    | some (m, r) => m :: scanPhoneAux fuel r
    | none => scanPhoneAux fuel rest

/-- All matches of the phone pattern in the text. -/
def scanPhone (text : List Char) : List (List Char) :=
  scanPhoneAux text.length text

/-- The post-match validation of `extract_phone_numbers`
(`investigator_agent.py` lines 54-57): `+91`-prefixed 13-character
all-digit tail, or a bare 10-digit number. -/
def phoneValid (n : List Char) : Bool :=
  (pyStartsWith ['+', '9', '1'] n && n.length = 13 && pyIsDigit (n.drop 3))
  || (n.length = 10 && pyIsDigit n)

/-- `InvestigatorAgent.extract_phone_numbers` (`investigator_agent.py`
lines 46-58). -/
def extract_phone_numbers (text : List Char) : List String :=
  let ms := scanPhone text
  let cleaned := ms.map (fun m => m.filter (fun c => !isSepCh c))
  let valid := cleaned.filter phoneValid
  (pySortedSet valid).map fun l => ⟨l⟩

/-- Character class `[\w\.\-]` of the UPI local part. -/
def isUpiLocalCh (c : Char) : Bool :=
  isWordCh c || c = '.' || c = '-'

/-- The closed provider list of `PATTERNS['upi_id']`, in the alternation
order written in the source (the Python engine tries them in order). -/
def UPI_PROVIDERS : List (List Char) :=
  ["paytm".toList, "ybl".toList, "axisbank".toList, "oksbi".toList,
   "icici".toList, "sbi".toList, "hdfc".toList, "airtel".toList,
   "freecharge".toList, "jiomoney".toList, "mobikwik".toList,
   "apl".toList, "okicici".toList, "okaxis".toList, "tmp".toList]

/-- Try the provider alternation (case-insensitively, the pattern is
compiled with `re.IGNORECASE`) followed by the trailing `\b`; on failure
of the boundary the engine moves to the next alternative. -/
def tryProviders : List (List Char) → List Char → Option (List Char × List Char)
  | [], _ => none
  | p :: ps, r =>
    if (r.take p.length).map Char.toLower = p && boundaryAfter (r.drop p.length) then
      some (r.take p.length, r.drop p.length)
    else tryProviders ps r

/-- Matcher for `PATTERNS['upi_id'] = \b[\w\.\-]+@(?:paytm|...)\b` at the
current position.  `prevW` is the word status of the previous character;
the leading `\b` holds iff it differs from the word status of the first
matched character.  The greedy `[\w\.\-]+` cannot backtrack usefully
because `@` is not in the class. -/
def upiMatchAt (prevW : Bool) (s : List Char) : Option (List Char × List Char) :=
  match s with
  | [] => none
  | c :: _ =>
    if prevW = isWordCh c then none else
    let loc := s.takeWhile isUpiLocalCh
    if loc.isEmpty then none else
    match s.drop loc.length with
    | '@' :: r2 =>
      (tryProviders UPI_PROVIDERS r2).map fun q => (loc ++ '@' :: q.1, q.2)
    | _ => none

/-- `re.finditer` driver for the UPI pattern (tracks the previous
character for the leading `\b`). -/
def scanUpiAux : Nat → Bool → List Char → List (List Char)
  | 0, _, _ => []
  | _ + 1, _, [] => []
  | fuel + 1, prevW, c :: rest =>
    match upiMatchAt prevW (c :: rest) with
    | some (m, r) => m :: scanUpiAux fuel (lastIsWord m prevW) r
    | none => scanUpiAux fuel (isWordCh c) rest

/-- All matches of the UPI pattern in the text. -/
def scanUpi (text : List Char) : List (List Char) :=
  scanUpiAux text.length false text

/-- `InvestigatorAgent.extract_upi_ids` (`investigator_agent.py`
lines 39-44): matches are stored lower-cased, deduplicated, sorted. -/
def extract_upi_ids (text : List Char) : List String :=
  let ms := scanUpi text
  let lowered := ms.map (fun m => m.map Char.toLower)
  (pySortedSet lowered).map fun l => ⟨l⟩

/-- Consume a literal case-insensitively (the URL patterns are compiled
with `re.IGNORECASE`); returns the consumed characters and the rest. -/
def litIC (lit : List Char) (s : List Char) : Option (List Char × List Char) :=
  if (s.take lit.length).map Char.toLower = lit then
    some (s.take lit.length, s.drop lit.length)
  else none

/-- The `https?://` alternative of `PATTERNS['url']`: `http`, a greedy
optional `s` (tried consumed first, then not), then `://`. -/
def schemeAt (s : List Char) : Option (List Char × List Char) :=
  match litIC "http".toList s with
  | none => none
  | some (h, r) =>
    let withS : Option (List Char × List Char) :=
      match r with
      | c :: r2 =>
        if c.toLower = 's' then
          (litIC "://".toList r2).map fun q => (h ++ c :: q.1, q.2)
        else none
      | [] => none
    withS.orElse fun _ => (litIC "://".toList r).map fun q => (h ++ q.1, q.2)

/-- Matcher for `PATTERNS['url'] = (?:https?://|www\.)[^\s]+`: scheme or
`www.`, then a non-empty greedy run of non-whitespace. -/
def urlMatchAt (s : List Char) : Option (List Char × List Char) :=
  match (schemeAt s).orElse (fun _ => litIC "www.".toList s) with
  | none => none
  | some (pre, r) =>
    let tail := r.takeWhile (fun c => !isSpaceCh c)
    if tail.isEmpty then none
    else some (pre ++ tail, r.drop tail.length)

/-- Matcher for `PATTERNS['bitly_url'] = bit\.ly/[^\s]+`. -/
def bitlyMatchAt (s : List Char) : Option (List Char × List Char) :=
  match litIC "bit.ly/".toList s with
  | none => none
  | some (pre, r) =>
    let tail := r.takeWhile (fun c => !isSpaceCh c)
    if tail.isEmpty then none
    else some (pre ++ tail, r.drop tail.length)

/-- Generic `re.finditer` driver for the boundary-free URL patterns. -/
def scanWithAux (matchAt : List Char → Option (List Char × List Char)) :
    Nat → List Char → List (List Char)
  | 0, _ => []
  | _ + 1, [] => []
  | fuel + 1, c :: rest =>
    match matchAt (c :: rest) with
    | some (m, r) => m :: scanWithAux matchAt fuel r
    | none => scanWithAux matchAt fuel rest

/-- All matches of a boundary-free pattern in the text. -/
def scanWith (matchAt : List Char → Option (List Char × List Char))
    (text : List Char) : List (List Char) :=
  scanWithAux matchAt text.length text

/-- The punctuation stripped from URL matches:
`url.strip(".,;!?\"'")` removes these characters from both ends. -/
def stripSet : List Char := ['.', ',', ';', '!', '?', '"', '\'']

/-- Python `str.strip(chars)`: drop the given characters from both ends. -/
def pyStrip (cs : List Char) : List Char :=
  ((cs.dropWhile (fun c => stripSet.contains c)).reverse.dropWhile
    (fun c => stripSet.contains c)).reverse

/-- `InvestigatorAgent.extract_phishing_links` (`investigator_agent.py`
lines 60-70).  The `is_valid_url` check calls the third-party
`validators` pip library (`validators.url`), which is not part of this
repository; it is taken as the oracle parameter `uv`. -/
def extract_phishing_links (uv : List Char → Bool) (text : List Char) : List String :=
  let ms := scanWith urlMatchAt text ++ scanWith bitlyMatchAt text
  let cleaned := ms.map pyStrip
  let valid := cleaned.filter uv
  (pySortedSet valid).map fun l => ⟨l⟩

/-! ### `InvestigatorAgent.extract_all` — `investigator_agent.py` lines 81-109 -/

/-- The result dict of `extract_all`, with the five fixed category keys. -/
structure ExtractedIntel where
  bankAccounts : List String
  upiIds : List String
  phishingLinks : List String
  phoneNumbers : List String
  suspiciousKeywords : List String
deriving Repr, DecidableEq

/-- `extract_all`: on empty or whitespace-only text every category is the
empty list; otherwise the five extractors run independently.  `uv` is
the external `validators.url` oracle used by the phishing-link
extractor. -/
def extract_all (uv : List Char → Bool) (text : List Char) : ExtractedIntel :=
  if text.all isSpaceCh then
    ⟨[], [], [], [], []⟩
  else
    { bankAccounts := extract_bank_accounts text
      upiIds := extract_upi_ids text
      phishingLinks := extract_phishing_links uv text
      phoneNumbers := extract_phone_numbers text
      suspiciousKeywords := extract_keywords text }

/-! ### Session store — `src/agents/session_manager.py`

The sessions dict is a function `String → Option Session`; the
per-session `intelligence` dict and the `new_intel` argument are
association lists in insertion order (Python dicts preserve insertion
order, and assignment to an absent key appends it). -/

/-- One history entry: the message dicts `{sender, text, timestamp}`. -/
structure MessageRecord where
  sender : String
  text : String
  timestamp : String
deriving Repr, DecidableEq

/-- The per-intelligence-type dict `session["intelligence"]`. -/
abbrev IntelDict := List (String × Finset String)

/-- Python `d.get(k)` on an insertion-ordered dict. -/
def dGet (d : IntelDict) (k : String) : Option (Finset String) :=
  match d with
  | [] => none
  | (k', v) :: rest => if k' = k then some v else dGet rest k

/-- Python `d.get(k, set())`. -/
def dGetD (d : IntelDict) (k : String) : Finset String :=
  (dGet d k).getD ∅

/-- Python `d[k] = v`: replace in place, or append if the key is absent. -/
def dSet (d : IntelDict) (k : String) (v : Finset String) : IntelDict :=
  match d with
  | [] => [(k, v)]
  | (k', v') :: rest => if k' = k then (k', v) :: rest else (k', v') :: dSet rest k v

/-- The per-session state dict created by `_create_new_session_state`. -/
structure Session where
  session_id : String
  turn_count : Nat
  scam_detected : Bool
  persona_used : Option String
  intelligence : IntelDict
  conversation_active : Bool
  last_intelligence_turn : Nat
  created_at : String
  conversation_history : List MessageRecord

/-- The sessions dict of the `SessionManager`. -/
abbrev Store := String → Option Session

/-- The empty sessions dict of a fresh `SessionManager`. -/
def emptyStore : Store := fun _ => none

/-- Point update of the sessions dict. -/
def storeSet (st : Store) (sid : String) (s : Session) : Store :=
  fun k => if k = sid then some s else st k

/-- The three configuration parameters of `SessionManager.__init__`
(defaults 20, 2, 5). -/
structure Config where
  max_conversation_turns : Nat
  min_intelligence_threshold : Nat
  stale_conversation_threshold : Nat
deriving Repr, DecidableEq

/-- `SessionManager._create_new_session_state` (lines 39-57).  `now` is
the `datetime.now().isoformat()` timestamp, passed in explicitly. -/
def create_new_session_state (sid : String) (now : String) : Session :=
  { session_id := sid
    turn_count := 0
    scam_detected := false
    persona_used := none
    intelligence :=
      [("bankAccounts", ∅), ("upiIds", ∅), ("phishingLinks", ∅),
       ("phoneNumbers", ∅), ("suspiciousKeywords", ∅)]
    conversation_active := true
    last_intelligence_turn := 0
    created_at := now
    conversation_history := [] }

/-- `SessionManager.get_or_create_session` (lines 59-73). -/
def get_or_create_session (st : Store) (sid : String) (now : String) :
    Store × Session :=
  match st sid with
  | some s => (st, s)
  | none =>
    let s := create_new_session_state sid now
    (storeSet st sid s, s)

/-- The per-type loop inside `update_intelligence` (lines 95-106): for
each incoming type, if the incoming set is not a subset of the current
set, store the union and remember that something was added. -/
def updLoop (d : IntelDict) : List (String × List String) → IntelDict × Bool
  | [] => (d, false)
  | (ty, items) :: rest =>
    let ns := items.toFinset
    let cur := dGetD d ty
    if ns ⊆ cur then updLoop d rest
    else
      let r := updLoop (dSet d ty (cur ∪ ns)) rest
      (r.1, true)

/-- `SessionManager.update_intelligence` (lines 75-112): merge the new
findings; if anything was added, set `last_intelligence_turn` to the
current (not incremented) `turn_count`.  Returns the new store and the
`new_intel_added` flag; a missing session is a logged no-op returning
`false`. -/
def update_intelligence (st : Store) (sid : String)
    (new_intel : List (String × List String)) : Store × Bool :=
  match st sid with
  | none => (st, false)
  | some s =>
    let r := updLoop s.intelligence new_intel
    let s' := { s with
      intelligence := r.1
      last_intelligence_turn :=
        if r.2 then s.turn_count else s.last_intelligence_turn }
    (storeSet st sid s', r.2)

/-- `SessionManager.increment_turn` (lines 114-133): append the message
to the history and increment the turn count, returning the new count;
`-1` signals a missing session. -/
def increment_turn (st : Store) (sid : String) (msg : MessageRecord) :
    Store × Int :=
  match st sid with
  | none => (st, -1)
  | some s =>
    let s' := { s with
      turn_count := s.turn_count + 1
      conversation_history := s.conversation_history ++ [msg] }
    (storeSet st sid s', (s'.turn_count : Int))

/-- `SessionManager.set_scam_detected` (lines 135-141): unconditional
overwrite; no-op when the session is missing. -/
def set_scam_detected (st : Store) (sid : String) (is_scam : Bool) : Store :=
  match st sid with
  | none => st
  | some s => storeSet st sid { s with scam_detected := is_scam }

/-- `SessionManager.set_persona_used` (lines 143-149): unconditional
overwrite of `persona_used`; no-op when the session is missing. -/
def set_persona_used (st : Store) (sid : String) (persona : String) : Store :=
  match st sid with
  | none => st
  | some s => storeSet st sid { s with persona_used := some persona }

/-- The count `intelligence_types_found` of `should_end_conversation`
(line 173): the number of intelligence types with a non-empty set. -/
def intelTypesFound (d : IntelDict) : Nat :=
  d.countP (fun p => decide (0 < p.2.card))

/-- `SessionManager.should_end_conversation` (lines 151-194): a missing
session returns `true` without touching the store; otherwise the three
rules are tried in order, each setting `conversation_active := false`
and returning `true` on match; otherwise `false` with the store
untouched.  The turn arithmetic is over `Int`, as in Python. -/
def should_end_conversation (cfg : Config) (st : Store) (sid : String) :
    Store × Bool :=
  match st sid with
  | none => (st, true)
  | some s =>
    if cfg.max_conversation_turns ≤ s.turn_count then
      (storeSet st sid { s with conversation_active := false }, true)
    else if cfg.min_intelligence_threshold ≤ intelTypesFound s.intelligence
        ∧ 1 < s.turn_count then
      (storeSet st sid { s with conversation_active := false }, true)
    else if (cfg.stale_conversation_threshold : Int) ≤
          (s.turn_count : Int) - (s.last_intelligence_turn : Int)
        ∧ 0 < s.turn_count then
      (storeSet st sid { s with conversation_active := false }, true)
    else (st, false)

/-- The summary dict built by `get_session_summary` (lines 196-230),
with the evidence sets converted to sorted lists. -/
structure Summary where
  sessionId : String
  turnCount : Nat
  scamDetected : Bool
  personaUsed : Option String
  extractedIntelligence : List (String × List String)
  conversationActive : Bool
  lastIntelligenceTurn : Nat
  createdAt : String
  conversationHistory : List MessageRecord
deriving Repr

/-- `sorted(list(v))` for one evidence set: Python sorts strings by code
point, which is the `≤` of `String`. -/
def sortedView (v : Finset String) : List String :=
  v.sort (· ≤ ·)

/-- `SessionManager.get_session_summary` (lines 196-230): `none` models
the `{"error": "Session not found"}` dict returned for a missing
session. -/
def get_session_summary (st : Store) (sid : String) : Option Summary :=
  match st sid with
  | none => none
  | some s => some
    { sessionId := s.session_id
      turnCount := s.turn_count
      scamDetected := s.scam_detected
      personaUsed := s.persona_used
      extractedIntelligence := s.intelligence.map (fun p => (p.1, sortedView p.2))
      conversationActive := s.conversation_active
      lastIntelligenceTurn := s.last_intelligence_turn
      createdAt := s.created_at
      conversationHistory := s.conversation_history }

/-- `SessionManager.end_session` (lines 232-239). -/
def end_session (st : Store) (sid : String) : Store :=
  match st sid with
  | none => st
  | some s => storeSet st sid { s with conversation_active := false }

/-! ### Coordinator — `src/agents/orchestrator.py`

The external collaborators are parameters: `detect` models
`DetectorAgent.detect_scam` (a network call with its own retries and
fallback), `act` models `ActorAgent.generate_response`, `uv` models the
third-party `validators.url` library.  Wall-clock readings
(`time.time()`, the `responseTimeMs` metric) are not modelled.
Python exceptions escaping `process_message` are modelled by the
`Except String` component of the result; the store component carries the
mutations already performed when the exception is raised, since the
sessions dict is mutated in place. -/

/-- The result dict of `DetectorAgent.detect_scam` as consumed by the
orchestrator (the unused `indicators` list is omitted); `confidence` is
modelled as a rational. -/
structure DetectorResult where
  is_scam : Bool
  confidence : ℚ
  reason : String
deriving Repr, DecidableEq

/-- Python truthiness of the `persona_used` value: `None` and the empty
string are falsy. -/
def truthyStr : Option String → Bool
  | none => false
  | some s => !s.isEmpty

/-- The keyword heuristic inside `Orchestrator._select_persona`
(lines 65-71): first match on the lowered text wins. -/
def persona_heuristic (msg : List Char) : String :=
  let lower := msg.map Char.toLower
  if hasSubstr "bank".toList lower || hasSubstr "account".toList lower then
    "elderly"
  else if hasSubstr "business".toList lower || hasSubstr "investment".toList lower then
    "professional"
  else
    "novice"

/-- `Orchestrator._select_persona` (lines 44-71): keep an already-set
persona; otherwise run the keyword heuristic over the text of the last
message of the session history (empty string if the history is empty).
For a missing session `get_session_summary` returns the error dict, on
which the subsequent `["conversationHistory"]` lookup raises `KeyError`;
that path is the `Except.error` case (unreachable from
`process_message`, which creates the session first). -/
def select_persona (st : Store) (sid : String) : Except String String :=
  match get_session_summary st sid with
  | none => Except.error "KeyError: conversationHistory"
  | some sm =>
    if truthyStr sm.personaUsed then
      Except.ok (sm.personaUsed.getD "")
    else
      let message_text :=
        match sm.conversationHistory.getLast? with
        | some m => m.text
        | none => ""
      Except.ok (persona_heuristic message_text.toList)

/-- The fixed non-engagement reply of `process_message` (line 127). -/
def fallback_reply : String := "Thank you for your message. I will pass this along."

/-- The `extract_all` result as the dict passed to
`update_intelligence`, in the key order of the source literal. -/
def intelToDict (e : ExtractedIntel) : List (String × List String) :=
  [("bankAccounts", e.bankAccounts), ("upiIds", e.upiIds),
   ("phishingLinks", e.phishingLinks), ("phoneNumbers", e.phoneNumbers),
   ("suspiciousKeywords", e.suspiciousKeywords)]

/-- Whether the module globals of `agents/orchestrator.py` bind the name
`datetime` when the module is imported.  The module's top-level imports
(lines 1-11) are `logging`, `typing`, `time` and the agent modules; the
statement `from datetime import datetime` occurs only inside the
`if __name__ == '__main__'` block (line 186), so on a normal import the
name is unbound and evaluating `datetime.now()` at line 142 raises
`NameError` (the adjacent comment in the source reads
`# Need datetime.now() from somewhere`). -/
def orchestrator_module_binds_datetime : Bool := false

/-- The response dict built at the end of `process_message`
(lines 166-179); the wall-clock `responseTimeMs` metric is omitted. -/
structure OrchResult where
  status : String
  scamDetected : Bool
  agentResponse : String
  extractedIntelligence : List (String × List String)
  conversationTurn : Nat
  totalIntelligenceItems : Nat
  confidenceScore : ℚ
  continueConversation : Bool
  agentNotes : String

/-- `sorted(list(v))` for a list value (the re-sort at lines 159-161). -/
def pySortedList (xs : List String) : List String :=
  (sortStrs (xs.map String.toList)).map fun l => ⟨l⟩

/-- Steps 7-8 of `process_message` (lines 146-179): evaluate
termination, take the summary, build the response dict.  The `none`
summary case models the `KeyError` that indexing the error dict would
raise (unreachable here: the session exists). -/
def finish_cycle (cfg : Config) (st : Store) (sid : String)
    (agent_response : String) (dres : DetectorResult) :
    Store × Except String OrchResult :=
  let r7 := should_end_conversation cfg st sid
  let continue_conversation := !r7.2
  match get_session_summary r7.1 sid with
  | none => (r7.1, Except.error "KeyError: extractedIntelligence")
  | some sm =>
    let out := sm.extractedIntelligence.map (fun p => (p.1, pySortedList p.2))
    (r7.1, Except.ok
      { status := "success"
        scamDetected := sm.scamDetected
        agentResponse := agent_response
        extractedIntelligence := out
        conversationTurn := sm.turnCount
        totalIntelligenceItems := (out.map (fun p => p.2.length)).sum
        confidenceScore := dres.confidence
        continueConversation := continue_conversation
        agentNotes := dres.reason })

/-- `Orchestrator.process_message` (lines 74-179), one full cycle.
`now` stands for the `datetime.now().isoformat()` readings taken inside
`session_manager`.  The `persona_used` read at line 114 comes from the
session dict fetched at step 1; no operation between the fetch and the
read mutates the persona, so the alias equals the live value. -/
def process_message (cfg : Config)
    (detect : String → List MessageRecord → DetectorResult)
    (act : String → String → List MessageRecord → String)
    (uv : List Char → Bool) (now : String)
    (st : Store) (session_id : String) (message : MessageRecord)
    (conversation_history : List MessageRecord) :
    Store × Except String OrchResult :=
  let r0 := get_or_create_session st session_id now
  let st1 := r0.1
  let session := r0.2
  let full := conversation_history ++ [message]
  let message_text := message.text
  let dres := detect message_text full
  let st2 := set_scam_detected st1 session_id dres.is_scam
  let scam_detected := dres.is_scam && decide ((7 : ℚ) / 10 < dres.confidence)
  let persona_used := session.persona_used
  let branch : Except String (Store × String) :=
    if scam_detected then
      if truthyStr persona_used then
        Except.ok (st2, act message_text (persona_used.getD "") full)
      else
        match select_persona st2 session_id with
        | Except.error e => Except.error e
        | Except.ok p =>
          Except.ok (set_persona_used st2 session_id p, act message_text p full)
    else
      Except.ok (st2, fallback_reply)
  match branch with
  | Except.error e => (st2, Except.error e)
  | Except.ok (st3, agent_response) =>
    let findings := extract_all uv message_text.toList
    let st4 := (update_intelligence st3 session_id (intelToDict findings)).1
    let st5 := (increment_turn st4 session_id message).1
    if agent_response.isEmpty then
      finish_cycle cfg st5 session_id agent_response dres
    else if orchestrator_module_binds_datetime then
      let st6 := (increment_turn st5 session_id
        { sender := "honeypot-agent", text := agent_response, timestamp := now }).1
      finish_cycle cfg st6 session_id agent_response dres
    else
      (st5, Except.error "NameError: name datetime is not defined")

/-! ### Spec-side predicates and operation traces

`TerminationRule` is written from the specification text of
`evaluateTermination` (spec section 4.1), to be compared with the
embedded `should_end_conversation`.  `Op` enumerates the public Session
Store operations, so that properties quantified over "any subsequent
operations" can be stated as properties of arbitrary operation
traces. -/

/-- Rule 1 of the spec: `turnCount ≥ maxTurns`. -/
def MaxTurnsRule (cfg : Config) (s : Session) : Prop :=
  cfg.max_conversation_turns ≤ s.turn_count

/-- Rule 2 of the spec: the count of categories with at least one
evidence item reaches `minEvidenceCategories`, and `turnCount > 1`. -/
def EvidenceRule (cfg : Config) (s : Session) : Prop :=
  cfg.min_intelligence_threshold ≤
    (s.intelligence.countP (fun p => decide p.2.Nonempty)) ∧ 1 < s.turn_count

/-- Rule 3 of the spec: `turnCount − lastEvidenceTurn ≥ staleTurns` and
`turnCount > 0`. -/
def StaleRule (cfg : Config) (s : Session) : Prop :=
  (cfg.stale_conversation_threshold : Int) ≤
    (s.turn_count : Int) - (s.last_intelligence_turn : Int) ∧ 0 < s.turn_count

/-- The disjunction of the three termination rules of the spec. -/
def TerminationRule (cfg : Config) (s : Session) : Prop :=
  MaxTurnsRule cfg s ∨ EvidenceRule cfg s ∨ StaleRule cfg s

/-- A public Session Store operation, as invokable by callers. -/
inductive Op where
  | getOrCreate (sid now : String)
  | updateIntel (sid : String) (ni : List (String × List String))
  | incTurn (sid : String) (m : MessageRecord)
  | setScam (sid : String) (b : Bool)
  | setPersona (sid : String) (p : String)
  | shouldEnd (sid : String)
  | endSession (sid : String)

/-- Effect of one store operation on the sessions dict. -/
def applyOp (cfg : Config) (st : Store) : Op → Store
  | .getOrCreate sid now => (get_or_create_session st sid now).1
  | .updateIntel sid ni => (update_intelligence st sid ni).1
  | .incTurn sid m => (increment_turn st sid m).1
  | .setScam sid b => set_scam_detected st sid b
  | .setPersona sid p => set_persona_used st sid p
  | .shouldEnd sid => (should_end_conversation cfg st sid).1
  | .endSession sid => end_session st sid

/-- Effect of a trace of store operations. -/
def applyOps (cfg : Config) : Store → List Op → Store
  | st, [] => st
  | st, op :: ops => applyOps cfg (applyOp cfg st op) ops

/-- Record a sequence of turns on one session: `increment_turn` for each
message in order. -/
def applyTurns (st : Store) (sid : String) : List MessageRecord → Store
  | [] => st
  | m :: ms => applyTurns (increment_turn st sid m).1 sid ms

/-- The session at `sid` exists and its `conversation_active` is false. -/
def InactiveAt (st : Store) (sid : String) : Prop :=
  (st sid).map (fun s => s.conversation_active) = some false

/-! ### Shared concrete fixtures used by the witnesses -/

/-- A fresh session used by concrete witnesses. -/
def demoSession : Session := create_new_session_state "s" "t0"

/-- A one-session store used by concrete witnesses. -/
def demoStore : Store := storeSet emptyStore "s" demoSession

/-- A concrete actor-authored message. -/
def demoMsg : MessageRecord :=
  { sender := "scammer", text := "hello", timestamp := "t1" }

/-- The configuration used by the concrete staleness traces:
`max_conversation_turns = 20`, `min_intelligence_threshold = 2`,
`stale_conversation_threshold = 2`. -/
def demoCfg : Config :=
  { max_conversation_turns := 20
    min_intelligence_threshold := 2
    stale_conversation_threshold := 2 }

/-- The default configuration of `SessionManager.__init__`. -/
def defaultCfg : Config :=
  { max_conversation_turns := 20
    min_intelligence_threshold := 2
    stale_conversation_threshold := 5 }

/-- The `demoStore` after two recorded turns and no evidence. -/
def staleStore : Store := applyTurns demoStore "s" [demoMsg, demoMsg]

/-- The session held by `staleStore`. -/
def staleSession : Session :=
  { demoSession with
    turn_count := 2
    conversation_history := [demoMsg, demoMsg] }

/-- Scenario-D configuration: `maxTurns = 3`, default thresholds. -/
def maxCfg : Config :=
  { max_conversation_turns := 3
    min_intelligence_threshold := 2
    stale_conversation_threshold := 5 }

/-- The `demoStore` after three recorded turns. -/
def maxStore : Store := applyTurns demoStore "s" [demoMsg, demoMsg, demoMsg]

/-- The session held by `maxStore`. -/
def maxSession : Session :=
  { demoSession with
    turn_count := 3
    conversation_history := [demoMsg, demoMsg, demoMsg] }

/-- The Scenario A text of the spec. -/
def scenarioAText : List Char :=
  "Your account 1234-5678-90123456 has been suspended".toList

/-- The Scenario C phone text of the spec. -/
def scenarioCText : List Char :=
  "Call +919876543210 or 8765432109, not 123456789".toList

/-- A concrete classifier oracle: not a scam, confidence one half (the
documented unavailability fallback of the detector). -/
def c9detect : String → List MessageRecord → DetectorResult :=
  fun _ _ => { is_scam := false, confidence := 1 / 2, reason := "unavailable" }

/-- A concrete responder oracle (unused on the non-engaging path). -/
def c9act : String → String → List MessageRecord → String :=
  fun _ _ _ => ""

/-! ### Statement forms used by the claim theorems and their witnesses -/

/-- Contract of `evaluateTermination` on an existing session: the call
returns true exactly when one of the three spec rules holds, on true it
stores the session with `active := false`, on false it leaves the store
untouched; and in the `maxTurns = 3` scenario the third recorded turn
forces termination regardless of evidence. -/
def TerminationSpec (cfg : Config) (st : Store) (sid : String) (s : Session) : Prop :=
  ((should_end_conversation cfg st sid).2 = true ↔ TerminationRule cfg s)
  ∧ ((should_end_conversation cfg st sid).2 = true →
      (should_end_conversation cfg st sid).1 =
        storeSet st sid { s with conversation_active := false })
  ∧ ((should_end_conversation cfg st sid).2 = false →
      (should_end_conversation cfg st sid).1 = st)
  ∧ (cfg.max_conversation_turns = 3 → s.turn_count = 3 →
      (should_end_conversation cfg st sid).2 = true ∧
      (should_end_conversation cfg st sid).1 sid =
        some { s with conversation_active := false })

/-- Contract of `mergeEvidence` on an existing session: every incoming
category ends at the union of old and new, untouched categories keep
their entry, every category only grows, the grew flag is true exactly
when some incoming set was not already contained, and exactly then
`lastEvidenceTurn` becomes the current (unincremented) `turnCount`. -/
def MergeSpec (st : Store) (sid : String) (s : Session)
    (ni : List (String × List String)) : Prop :=
  ∃ s', (update_intelligence st sid ni).1 sid = some s'
    ∧ (∀ ty items, (ty, items) ∈ ni →
        dGetD s'.intelligence ty = dGetD s.intelligence ty ∪ items.toFinset)
    ∧ (∀ ty, ty ∉ ni.map Prod.fst →
        dGet s'.intelligence ty = dGet s.intelligence ty)
    ∧ (∀ ty, dGetD s.intelligence ty ⊆ dGetD s'.intelligence ty)
    ∧ ((update_intelligence st sid ni).2 = true ↔
        ∃ p ∈ ni, ¬ p.2.toFinset ⊆ dGetD s.intelligence p.1)
    ∧ s'.last_intelligence_turn =
        (if (update_intelligence st sid ni).2 = true then s.turn_count
         else s.last_intelligence_turn)
    ∧ s'.turn_count = s.turn_count

/-- Behaviour of two successive identical `mergeEvidence` calls: the
first call grows exactly when some incoming value is new, the second
call never grows and leaves the store exactly as the first call left
it. -/
def MergeIdemSpec (st : Store) (sid : String) (s : Session)
    (ni : List (String × List String)) : Prop :=
  ((update_intelligence st sid ni).2 = true ↔
      ∃ p ∈ ni, ¬ p.2.toFinset ⊆ dGetD s.intelligence p.1)
  ∧ (update_intelligence (update_intelligence st sid ni).1 sid ni).2 = false
  ∧ (update_intelligence (update_intelligence st sid ni).1 sid ni).1 =
      (update_intelligence st sid ni).1

/-- After a terminating `evaluateTermination` call: any further sequence
of recorded turns on the session keeps the call returning true, and any
trace of store operations leaves the session inactive. -/
def TerminalStaySpec (cfg : Config) (st : Store) (sid : String)
    (msgs : List MessageRecord) (ops : List Op) : Prop :=
  (should_end_conversation cfg
      (applyTurns (should_end_conversation cfg st sid).1 sid msgs) sid).2 = true
  ∧ InactiveAt (applyOps cfg (should_end_conversation cfg st sid).1 ops) sid

/-! ### Helper lemmas -/

theorem storeSet_self (st : Store) (sid : String) (s : Session) :
    storeSet st sid s sid = some s := by
  simp [storeSet]

theorem dGet_dSet_self (d : IntelDict) (k : String) (v : Finset String) :
    dGet (dSet d k v) k = some v := by
  induction d with
  | nil => simp [dGet, dSet]
  | cons p rest ih =>
    obtain ⟨a, b⟩ := p
    by_cases h : a = k <;> simp [dGet, dSet, h, ih]

theorem dGet_dSet_ne (d : IntelDict) (k k' : String) (v : Finset String)
    (h : k ≠ k') : dGet (dSet d k v) k' = dGet d k' := by
  induction d with
  | nil => simp [dGet, dSet, h]
  | cons p rest ih =>
    obtain ⟨a, b⟩ := p
    by_cases ha : a = k
    · subst ha
      simp [dGet, dSet, h]
    · simp [dGet, dSet, ha, ih]

theorem dGetD_dSet_ne (d : IntelDict) (k k' : String) (v : Finset String)
    (h : k ≠ k') : dGetD (dSet d k v) k' = dGetD d k' := by
  simp [dGetD, dGet_dSet_ne d k k' v h]

/-- Keys outside the incoming dict are untouched by the merge loop. -/
theorem updLoop_get_notMem (ni : List (String × List String)) :
    ∀ (d : IntelDict) (ty : String), ty ∉ ni.map Prod.fst →
      dGet (updLoop d ni).1 ty = dGet d ty := by
  induction ni with
  | nil => intro d ty _; rfl
  | cons p rest ih =>
    obtain ⟨a, items⟩ := p
    intro d ty hty
    simp only [List.map_cons, List.mem_cons, not_or] at hty
    obtain ⟨hne, hrest⟩ := hty
    show dGet (updLoop d ((a, items) :: rest)).1 ty = dGet d ty
    unfold updLoop
    by_cases hsub : items.toFinset ⊆ dGetD d a
    · simp only [if_pos hsub]
      exact ih d ty hrest
    · simp only [if_neg hsub]
      rw [ih _ ty hrest, dGet_dSet_ne _ _ _ _ (fun e => hne e.symm)]

/-- On key-distinct incoming dicts, each incoming category ends at the
union of its old and new values. -/
theorem updLoop_getD_mem (ni : List (String × List String)) :
    ∀ (d : IntelDict) (ty : String) (items : List String),
      (ni.map Prod.fst).Nodup → (ty, items) ∈ ni →
      dGetD (updLoop d ni).1 ty = dGetD d ty ∪ items.toFinset := by
  induction ni with
  | nil => intro d ty items _ h; cases h
  | cons p rest ih =>
    obtain ⟨a, aitems⟩ := p
    intro d ty items hnd hmem
    simp only [List.map_cons, List.nodup_cons] at hnd
    obtain ⟨ha, hndrest⟩ := hnd
    rcases List.mem_cons.mp hmem with heq | hrest
    · injection heq with h1 h2
      subst h1; subst h2
      unfold updLoop
      by_cases hsub : items.toFinset ⊆ dGetD d ty
      · simp only [if_pos hsub]
        have hkeys : ty ∉ rest.map Prod.fst := ha
        rw [show dGetD (updLoop d rest).1 ty = dGetD d ty by
          simp [dGetD, updLoop_get_notMem rest d ty hkeys]]
        exact (Finset.union_eq_left.mpr hsub).symm
      · simp only [if_neg hsub]
        have hkeys : ty ∉ rest.map Prod.fst := ha
        show dGetD (updLoop (dSet d ty (dGetD d ty ∪ items.toFinset)) rest).1 ty = _
        rw [show dGetD (updLoop (dSet d ty (dGetD d ty ∪ items.toFinset)) rest).1 ty
              = dGetD (dSet d ty (dGetD d ty ∪ items.toFinset)) ty by
          simp [dGetD, updLoop_get_notMem rest _ ty hkeys]]
        simp [dGetD, dGet_dSet_self]
    · have hne : a ≠ ty := by
        intro e
        exact ha (e ▸ (List.mem_map.mpr ⟨(ty, items), hrest, rfl⟩))
      unfold updLoop
      by_cases hsub : aitems.toFinset ⊆ dGetD d a
      · simp only [if_pos hsub]
        exact ih d ty items hndrest hrest
      · simp only [if_neg hsub]
        show dGetD (updLoop (dSet d a (dGetD d a ∪ aitems.toFinset)) rest).1 ty = _
        rw [ih _ ty items hndrest hrest, dGetD_dSet_ne _ _ _ _ hne]

/-- The grew flag is true exactly when some incoming set is not already
contained in the corresponding current set. -/
theorem updLoop_flag (ni : List (String × List String)) :
    ∀ d : IntelDict,
      ((updLoop d ni).2 = true ↔
        ∃ p ∈ ni, ¬ p.2.toFinset ⊆ dGetD d p.1) := by
  induction ni with
  | nil => intro d; simp [updLoop]
  | cons p rest ih =>
    obtain ⟨a, items⟩ := p
    intro d
    unfold updLoop
    by_cases hsub : items.toFinset ⊆ dGetD d a
    · simp only [if_pos hsub]
      rw [ih d]
      constructor
      · rintro ⟨q, hq, hns⟩
        exact ⟨q, List.mem_cons_of_mem _ hq, hns⟩
      · rintro ⟨q, hq, hns⟩
        rcases List.mem_cons.mp hq with he | hm
        · subst he; exact absurd hsub hns
        · exact ⟨q, hm, hns⟩
    · simp only [if_neg hsub]
      constructor
      · intro _
        exact ⟨(a, items), List.mem_cons_self _ _, hsub⟩
      · intro _
        trivial

/-- Every category only grows across the merge loop. -/
theorem updLoop_superset (ni : List (String × List String)) :
    ∀ (d : IntelDict) (ty : String),
      dGetD d ty ⊆ dGetD (updLoop d ni).1 ty := by
  induction ni with
  | nil => intro d ty; exact Finset.Subset.refl _
  | cons p rest ih =>
    obtain ⟨a, items⟩ := p
    intro d ty
    unfold updLoop
    by_cases hsub : items.toFinset ⊆ dGetD d a
    · simp only [if_pos hsub]; exact ih d ty
    · simp only [if_neg hsub]
      refine Finset.Subset.trans ?_ (ih (dSet d a (dGetD d a ∪ items.toFinset)) ty)
      by_cases he : a = ty
      · subst he
        rw [show dGetD (dSet d a (dGetD d a ∪ items.toFinset)) a
              = dGetD d a ∪ items.toFinset by simp [dGetD, dGet_dSet_self]]
        exact Finset.subset_union_left
      · rw [dGetD_dSet_ne _ _ _ _ he]

/-- If every incoming set is already contained, the loop does nothing. -/
theorem updLoop_noop (ni : List (String × List String)) :
    ∀ d : IntelDict, (∀ p ∈ ni, p.2.toFinset ⊆ dGetD d p.1) →
      updLoop d ni = (d, false) := by
  induction ni with
  | nil => intro d _; rfl
  | cons p rest ih =>
    obtain ⟨a, items⟩ := p
    intro d hall
    unfold updLoop
    have hsub : items.toFinset ⊆ dGetD d a := hall (a, items) (List.mem_cons_self _ _)
    simp only [if_pos hsub]
    exact ih d (fun q hq => hall q (List.mem_cons_of_mem _ hq))

/-- A non-empty finite set is exactly one of positive size, so the
code-side count agrees with the spec-side count. -/
theorem intelTypesFound_eq (d : IntelDict) :
    intelTypesFound d = d.countP (fun p => decide p.2.Nonempty) := by
  unfold intelTypesFound
  apply List.countP_congr
  intro p _
  simp [Finset.card_pos]

/-- Characterisation of `should_end_conversation` on an existing
session: result flag, and the store on each outcome. -/
theorem should_end_spec (cfg : Config) (st : Store) (sid : String) (s : Session)
    (hs : st sid = some s) :
    ((should_end_conversation cfg st sid).2 = true ↔ TerminationRule cfg s)
    ∧ ((should_end_conversation cfg st sid).2 = true →
        (should_end_conversation cfg st sid).1 =
          storeSet st sid { s with conversation_active := false })
    ∧ ((should_end_conversation cfg st sid).2 = false →
        (should_end_conversation cfg st sid).1 = st) := by
  have hcount : intelTypesFound s.intelligence
      = s.intelligence.countP (fun p => decide p.2.Nonempty) := intelTypesFound_eq _
  unfold should_end_conversation
  rw [hs]
  dsimp only
  split_ifs with h1 h2 h3
  · exact ⟨⟨fun _ => Or.inl h1, fun _ => rfl⟩, fun _ => rfl, fun hf => by simp at hf⟩
  · refine ⟨⟨fun _ => Or.inr (Or.inl ⟨?_, h2.2⟩), fun _ => rfl⟩,
      fun _ => rfl, fun hf => by simp at hf⟩
    rw [← hcount]
    exact h2.1
  · exact ⟨⟨fun _ => Or.inr (Or.inr h3), fun _ => rfl⟩, fun _ => rfl,
      fun hf => by simp at hf⟩
  · refine ⟨⟨fun hf => by simp at hf, fun hr => ?_⟩, fun hf => by simp at hf,
      fun _ => rfl⟩
    rcases hr with h | h | h
    · exact absurd h h1
    · refine absurd ⟨?_, h.2⟩ h2
      rw [hcount]
      exact h.1
    · exact absurd h h3

/-- A terminating rule forces the call to return true. -/
theorem should_end_of_rule (cfg : Config) (st : Store) (sid : String)
    (s : Session) (hs : st sid = some s) (h : TerminationRule cfg s) :
    (should_end_conversation cfg st sid).2 = true :=
  (should_end_spec cfg st sid s hs).1.mpr h

theorem storeSet_lookup (st : Store) (sid' : String) (s : Session) (k : String) :
    storeSet st sid' s k = if k = sid' then some s else st k := rfl

/-- Point update preserves an inactive session, provided the value
written at the session itself is inactive. -/
theorem inactive_storeSet (st : Store) (sid sid' : String) (s' : Session)
    (h : InactiveAt st sid)
    (hact : sid = sid' → s'.conversation_active = false) :
    InactiveAt (storeSet st sid' s') sid := by
  unfold InactiveAt at h ⊢
  rw [storeSet_lookup]
  by_cases e : sid = sid'
  · rw [if_pos e]
    show some s'.conversation_active = some false
    rw [hact e]
  · rw [if_neg e]
    exact h

/-- Every public store operation keeps an inactive session inactive. -/
theorem applyOp_inactive (cfg : Config) (op : Op) (st : Store) (sid : String)
    (h : InactiveAt st sid) : InactiveAt (applyOp cfg st op) sid := by
  cases op with
  | getOrCreate sid' now =>
    show InactiveAt (get_or_create_session st sid' now).1 sid
    unfold get_or_create_session
    rcases hl : st sid' with _ | s
    · apply inactive_storeSet _ _ _ _ h
      intro e
      subst e
      simp [InactiveAt, hl] at h
    · exact h
  | updateIntel sid' ni =>
    show InactiveAt (update_intelligence st sid' ni).1 sid
    unfold update_intelligence
    rcases hl : st sid' with _ | s
    · exact h
    · apply inactive_storeSet _ _ _ _ h
      intro e
      subst e
      simp [InactiveAt, hl] at h
      simpa using h
  | incTurn sid' m =>
    show InactiveAt (increment_turn st sid' m).1 sid
    unfold increment_turn
    rcases hl : st sid' with _ | s
    · exact h
    · apply inactive_storeSet _ _ _ _ h
      intro e
      subst e
      simp [InactiveAt, hl] at h
      simpa using h
  | setScam sid' b =>
    show InactiveAt (set_scam_detected st sid' b) sid
    unfold set_scam_detected
    rcases hl : st sid' with _ | s
    · exact h
    · apply inactive_storeSet _ _ _ _ h
      intro e
      subst e
      simp [InactiveAt, hl] at h
      simpa using h
  | setPersona sid' p =>
    show InactiveAt (set_persona_used st sid' p) sid
    unfold set_persona_used
    rcases hl : st sid' with _ | s
    · exact h
    · apply inactive_storeSet _ _ _ _ h
      intro e
      subst e
      simp [InactiveAt, hl] at h
      simpa using h
  | shouldEnd sid' =>
    show InactiveAt (should_end_conversation cfg st sid').1 sid
    unfold should_end_conversation
    rcases hl : st sid' with _ | s
    · exact h
    · dsimp only
      split_ifs <;>
        first
        | exact h
        | exact inactive_storeSet _ _ _ _ h (fun _ => rfl)
  | endSession sid' =>
    show InactiveAt (end_session st sid') sid
    unfold end_session
    rcases hl : st sid' with _ | s
    · exact h
    · exact inactive_storeSet _ _ _ _ h (fun _ => rfl)

/-- An operation trace keeps an inactive session inactive. -/
theorem applyOps_inactive (cfg : Config) (ops : List Op) :
    ∀ (st : Store) (sid : String), InactiveAt st sid →
      InactiveAt (applyOps cfg st ops) sid := by
  induction ops with
  | nil => intro st sid h; exact h
  | cons op rest ih =>
    intro st sid h
    exact ih _ _ (applyOp_inactive cfg op st sid h)

/-- Recording one more turn preserves any matched termination rule. -/
theorem terminationRule_incTurn (cfg : Config) (s : Session) (m : MessageRecord)
    (h : TerminationRule cfg s) :
    TerminationRule cfg
      { s with
        turn_count := s.turn_count + 1
        conversation_history := s.conversation_history ++ [m] } := by
  rcases h with h | h | h
  · exact Or.inl (Nat.le_succ_of_le h)
  · exact Or.inr (Or.inl ⟨h.1, Nat.lt_succ_of_lt h.2⟩)
  · refine Or.inr (Or.inr ⟨?_, Nat.succ_pos _⟩)
    have h1 : (cfg.stale_conversation_threshold : Int) ≤
        (s.turn_count : Int) - (s.last_intelligence_turn : Int) := h.1
    show (cfg.stale_conversation_threshold : Int) ≤
        ((s.turn_count + 1 : Nat) : Int) - (s.last_intelligence_turn : Int)
    omega

/-- Recording any further sequence of turns preserves a matched
termination rule, and the session survives. -/
theorem applyTurns_rule (cfg : Config) (sid : String)
    (msgs : List MessageRecord) :
    ∀ (st : Store) (s : Session), st sid = some s → TerminationRule cfg s →
      ∃ s', applyTurns st sid msgs sid = some s' ∧ TerminationRule cfg s' := by
  induction msgs with
  | nil => intro st s hs h; exact ⟨s, hs, h⟩
  | cons m ms ih =>
    intro st s hs h
    show ∃ s', applyTurns (increment_turn st sid m).1 sid ms sid = some s' ∧ _
    have h1 : (increment_turn st sid m).1 = storeSet st sid
        { s with
          turn_count := s.turn_count + 1
          conversation_history := s.conversation_history ++ [m] } := by
      unfold increment_turn
      rw [hs]
    rw [h1]
    exact ih _ _ (storeSet_self _ _ _) (terminationRule_incTurn cfg s m h)

/-- Writing back the value already present changes nothing. -/
theorem storeSet_idem (st : Store) (sid : String) (s : Session)
    (h : st sid = some s) : storeSet st sid s = st := by
  funext k
  rw [storeSet_lookup]
  by_cases e : k = sid
  · rw [if_pos e, e, h]
  · rw [if_neg e]

/-- Closed form of `update_intelligence` on an existing session. -/
theorem update_intelligence_eq (st : Store) (sid : String) (s : Session)
    (ni : List (String × List String)) (hs : st sid = some s) :
    update_intelligence st sid ni =
      (storeSet st sid
        { s with
          intelligence := (updLoop s.intelligence ni).1
          last_intelligence_turn :=
            if (updLoop s.intelligence ni).2 then s.turn_count
            else s.last_intelligence_turn },
       (updLoop s.intelligence ni).2) := by
  unfold update_intelligence
  rw [hs]

/-! ### Claim theorems -/

/-- C4: the bank-account validator rejects every cleaned string that
contains the ascending run `123456789` or the descending run
`987654321` anywhere as a substring — so in particular every
9-to-18-digit number containing such a run anywhere is rejected, not
only the string equal to the 9-digit sequence. -/
theorem C4_sequential_substring_rejection (number : List Char)
    (h : hasSubstr ascRun number = true ∨ hasSubstr descRun number = true) :
    is_valid_bank_account number = false := by
  unfold is_valid_bank_account
  split_ifs with h1 h2 h3
  · rfl
  · rfl
  · rfl
  · exfalso
    rcases h with h | h <;> simp [h] at h3

/-- C4 witness: the 16-digit number `1234567890123456` is not the bare
9-digit run, contains it as a substring, and is rejected. -/
theorem C4_witness :
    (hasSubstr ascRun "1234567890123456".toList = true ∨
      hasSubstr descRun "1234567890123456".toList = true)
    ∧ is_valid_bank_account "1234567890123456".toList = false :=
  ⟨Or.inl (by decide),
   C4_sequential_substring_rejection "1234567890123456".toList (Or.inl (by decide))⟩

/-- C3: on the Scenario A text the code returns an empty `bankAccounts`
list — the cleaned match `1234567890123456` contains the ascending run
and the validator rejects it — while the claim (and the repository's
own tests, `test_extractors.py` lines 17 and 127) expects the single
account.  The keyword half of the claim does hold: `suspended` is
extracted. -/
theorem C3_scenarioA_divergence :
    (∀ uv : List Char → Bool,
      (extract_all uv scenarioAText).bankAccounts = []
      ∧ "suspended" ∈ (extract_all uv scenarioAText).suspiciousKeywords)
    ∧ is_valid_bank_account "1234567890123456".toList = false := by
  refine ⟨fun uv => ⟨rfl, ?_⟩, by decide⟩
  show "suspended" ∈ extract_keywords scenarioAText
  decide

/-- C8: phone extraction on the Scenario C text returns exactly the
13-character `+91`-prefixed number and the bare 10-digit number, and
rejects the 9-digit run. -/
theorem C8_scenarioC_phone_extraction :
    extract_phone_numbers scenarioCText = ["+919876543210", "8765432109"]
    ∧ (∀ uv : List Char → Bool,
        (extract_all uv scenarioCText).phoneNumbers =
          ["+919876543210", "8765432109"]) := by
  refine ⟨by decide, fun uv => ?_⟩
  show extract_phone_numbers scenarioCText = _
  decide

/-- C10: on a session id that was never created,
`should_end_conversation` returns true without creating the session and
without modifying the store, while the other store operations treat the
missing id as a no-op (returning `false`, `-1`, or the unchanged
store). -/
theorem C10_missing_session (cfg : Config) (st : Store) (sid : String)
    (h : st sid = none) :
    should_end_conversation cfg st sid = (st, true)
    ∧ (∀ ni, update_intelligence st sid ni = (st, false))
    ∧ (∀ m, increment_turn st sid m = (st, -1))
    ∧ (∀ b, set_scam_detected st sid b = st)
    ∧ (∀ p, set_persona_used st sid p = st) := by
  refine ⟨?_, fun ni => ?_, fun m => ?_, fun b => ?_, fun p => ?_⟩
  · unfold should_end_conversation
    rw [h]
  · unfold update_intelligence
    rw [h]
  · unfold increment_turn
    rw [h]
  · unfold set_scam_detected
    rw [h]
  · unfold set_persona_used
    rw [h]

/-- C10 witness: the empty store at a ghost id. -/
theorem C10_witness :
    emptyStore "ghost" = none
    ∧ should_end_conversation defaultCfg emptyStore "ghost" = (emptyStore, true)
    ∧ increment_turn emptyStore "ghost" demoMsg = (emptyStore, -1) :=
  ⟨rfl, (C10_missing_session defaultCfg emptyStore "ghost" rfl).1,
   (C10_missing_session defaultCfg emptyStore "ghost" rfl).2.2.1 demoMsg⟩

/-- C5: on every created session, with positive parameters, the
termination evaluation returns true exactly when one of the three
prioritized rules matches (max turns; enough evidence categories after
the first turn; staleness), stores `active := false` exactly on true,
leaves the store untouched on false; and with `maxTurns = 3` the third
recorded turn terminates regardless of evidence. -/
theorem C5_termination_rules (cfg : Config) (st : Store) (sid : String)
    (s : Session) (hs : st sid = some s)
    (hmax : 0 < cfg.max_conversation_turns)
    (hmin : 0 < cfg.min_intelligence_threshold)
    (hstale : 0 < cfg.stale_conversation_threshold) :
    TerminationSpec cfg st sid s := by
  obtain ⟨hiff, htrue, hfalse⟩ := should_end_spec cfg st sid s hs
  refine ⟨hiff, htrue, hfalse, fun h3 hturn => ?_⟩
  have hrule : TerminationRule cfg s := by
    refine Or.inl ?_
    unfold MaxTurnsRule
    omega
  have ht : (should_end_conversation cfg st sid).2 = true := hiff.mpr hrule
  refine ⟨ht, ?_⟩
  rw [htrue ht]
  exact storeSet_self _ _ _

/-- C5 witness: Scenario D, a session after its third recorded turn
with `maxTurns = 3` and no evidence. -/
theorem C5_witness :
    maxStore "s" = some maxSession
    ∧ 0 < maxCfg.max_conversation_turns
    ∧ 0 < maxCfg.min_intelligence_threshold
    ∧ 0 < maxCfg.stale_conversation_threshold
    ∧ TerminationSpec maxCfg maxStore "s" maxSession :=
  ⟨rfl, by decide, by decide, by decide,
   C5_termination_rules maxCfg maxStore "s" maxSession rfl
     (by decide) (by decide) (by decide)⟩

/-- C6: on every created session and key-distinct findings dict, the
merge stores, per incoming category, the union of the existing and
incoming values (a superset of the previous set; untouched categories
keep their entries), returns true exactly when some incoming set was
not already contained, and exactly then sets `lastEvidenceTurn` to the
current, unincremented, `turnCount`. -/
theorem C6_merge_evidence (st : Store) (sid : String) (s : Session)
    (ni : List (String × List String)) (hs : st sid = some s)
    (hnd : (ni.map Prod.fst).Nodup) :
    MergeSpec st sid s ni := by
  unfold MergeSpec
  rw [update_intelligence_eq st sid s ni hs]
  dsimp only
  refine ⟨_, storeSet_self _ _ _, ?_, ?_, ?_, ?_, ?_, ?_⟩
  · exact fun ty items hm => updLoop_getD_mem ni s.intelligence ty items hnd hm
  · exact fun ty hm => updLoop_get_notMem ni s.intelligence ty hm
  · exact fun ty => updLoop_superset ni s.intelligence ty
  · exact updLoop_flag ni s.intelligence
  · rfl
  · rfl

/-- C6 witness: merging one new bank account into a fresh session. -/
theorem C6_witness :
    demoStore "s" = some demoSession
    ∧ ((([("bankAccounts", ["1122334455667788"])] :
          List (String × List String)).map Prod.fst).Nodup)
    ∧ MergeSpec demoStore "s" demoSession [("bankAccounts", ["1122334455667788"])] :=
  ⟨rfl, by decide,
   C6_merge_evidence demoStore "s" demoSession
     [("bankAccounts", ["1122334455667788"])] rfl (by decide)⟩

/-- C7 counterexample: a findings mapping whose values are all already
contained (here: an empty value list on a fresh session) makes the
first call return `grew = false`, refuting the claim that the first of
two identical calls always yields `grew = true`. -/
theorem C7_counterexample_first_call_false :
    (update_intelligence demoStore "s" [("bankAccounts", [])]).2 = false := by
  decide

/-- C7 amended: for two successive identical `mergeEvidence` calls on a
created session with a key-distinct findings dict, the second call
always returns `grew = false` and leaves the store exactly as the first
call left it; the first call returns `grew = true` if and only if some
incoming value was not already present (so not unconditionally). -/
theorem C7_merge_idempotence (st : Store) (sid : String) (s : Session)
    (ni : List (String × List String)) (hs : st sid = some s)
    (hnd : (ni.map Prod.fst).Nodup) :
    MergeIdemSpec st sid s ni := by
  have h1 := update_intelligence_eq st sid s ni hs
  have hlook : (update_intelligence st sid ni).1 sid = some
      { s with
        intelligence := (updLoop s.intelligence ni).1
        last_intelligence_turn :=
          if (updLoop s.intelligence ni).2 then s.turn_count
          else s.last_intelligence_turn } := by
    rw [h1]
    exact storeSet_self _ _ _
  have hall : ∀ p ∈ ni, p.2.toFinset ⊆
      dGetD (updLoop s.intelligence ni).1 p.1 := by
    intro p hp
    have := updLoop_getD_mem ni s.intelligence p.1 p.2 hnd (by simpa using hp)
    rw [this]
    exact Finset.subset_union_right
  have hnoop : updLoop (updLoop s.intelligence ni).1 ni =
      ((updLoop s.intelligence ni).1, false) :=
    updLoop_noop ni (updLoop s.intelligence ni).1 hall
  have h2 := update_intelligence_eq (update_intelligence st sid ni).1 sid _ ni hlook
  refine ⟨?_, ?_, ?_⟩
  · rw [h1]
    exact updLoop_flag ni s.intelligence
  · rw [h2, hnoop]
  · rw [h2, hnoop]
    dsimp only
    apply storeSet_idem
    exact hlook

/-- C7 witness: two identical merges of one UPI id into a fresh
session. -/
theorem C7_witness :
    demoStore "s" = some demoSession
    ∧ ((([("upiIds", ["user@paytm"])] :
          List (String × List String)).map Prod.fst).Nodup)
    ∧ MergeIdemSpec demoStore "s" demoSession [("upiIds", ["user@paytm"])] :=
  ⟨rfl, by decide,
   C7_merge_idempotence demoStore "s" demoSession
     [("upiIds", ["user@paytm"])] rfl (by decide)⟩

/-- C1 counterexample: on a fresh session, `setPersona("elderly")`
followed by `setPersona("professional")` ends with the snapshot showing
`professional` — the second call is not a no-op, refuting store-level
first-write-wins. -/
theorem C1_counterexample_persona_overwritten :
    ((get_session_summary
        (set_persona_used
          (set_persona_used (get_or_create_session emptyStore "s" "t0").1 "s" "elderly")
          "s" "professional") "s").map fun sm => sm.personaUsed)
      = some (some "professional")
    ∧ ((get_session_summary
        (set_persona_used
          (set_persona_used (get_or_create_session emptyStore "s" "t0").1 "s" "elderly")
          "s" "professional") "s").map fun sm => sm.personaUsed)
      ≠ some (some "elderly") := by
  constructor
  · decide
  · decide

/-- C1 amended: at the Session Store level `set_persona_used` is an
unconditional overwrite (last-write-wins) on an existing session: after
setting `p1` and then `p2`, the snapshot shows `p2`.  First-write-wins
is enforced only by the Orchestrator, which calls the setter only when
the persona is still unset. -/
theorem C1_setPersona_last_write_wins (st : Store) (sid : String) (s : Session)
    (p1 p2 : String) (hs : st sid = some s) :
    ((get_session_summary
        (set_persona_used (set_persona_used st sid p1) sid p2) sid).map
      fun sm => sm.personaUsed) = some (some p2) := by
  have h1 : set_persona_used st sid p1
      = storeSet st sid { s with persona_used := some p1 } := by
    unfold set_persona_used
    rw [hs]
  have h2 : set_persona_used (storeSet st sid { s with persona_used := some p1 }) sid p2
      = storeSet (storeSet st sid { s with persona_used := some p1 }) sid
          { { s with persona_used := some p1 } with persona_used := some p2 } := by
    unfold set_persona_used
    rw [storeSet_self]
  rw [h1, h2]
  unfold get_session_summary
  rw [storeSet_self]
  rfl

/-- C1 witness: the amended statement at a fresh concrete session. -/
theorem C1_witness :
    demoStore "s" = some demoSession
    ∧ ((get_session_summary
        (set_persona_used (set_persona_used demoStore "s" "elderly") "s" "professional")
          "s").map fun sm => sm.personaUsed) = some (some "professional") :=
  ⟨rfl, C1_setPersona_last_write_wins demoStore "s" demoSession
    "elderly" "professional" rfl⟩

/-- C2 counterexample: with stale threshold 2, a session with two turns
and no evidence terminates by staleness (`true`); merging fresh
evidence afterwards resets `lastEvidenceTurn` to the current turn, and
the next evaluateTermination call returns `false` — refuting "every
subsequent call also returns true regardless of merged evidence". -/
theorem C2_counterexample_merge_after_stale_end :
    (should_end_conversation demoCfg staleStore "s").2 = true
    ∧ (should_end_conversation demoCfg
        (update_intelligence (should_end_conversation demoCfg staleStore "s").1 "s"
          [("suspiciousKeywords", ["urgent"])]).1 "s").2 = false := by
  constructor
  · decide
  · decide

/-- C2 amended: once `evaluateTermination` returns true on a created
session, it keeps returning true across any further recorded turns
(with no evidence merge in between), and the session stays inactive
across every trace of store operations; only a growing evidence merge
after a staleness end can make a later call return false. -/
theorem C2_terminal_stability (cfg : Config) (st : Store) (sid : String)
    (s : Session) (msgs : List MessageRecord) (ops : List Op)
    (hs : st sid = some s)
    (h : (should_end_conversation cfg st sid).2 = true) :
    TerminalStaySpec cfg st sid msgs ops := by
  obtain ⟨hiff, htrue, _⟩ := should_end_spec cfg st sid s hs
  have hrule : TerminationRule cfg s := hiff.mp h
  have hstore := htrue h
  constructor
  · rw [hstore]
    have hrule' : TerminationRule cfg { s with conversation_active := false } := hrule
    obtain ⟨s', hs', hr'⟩ :=
      applyTurns_rule cfg sid msgs _ _ (storeSet_self st sid _) hrule'
    exact should_end_of_rule cfg _ sid s' hs' hr'
  · rw [hstore]
    apply applyOps_inactive
    unfold InactiveAt
    rw [storeSet_self]
    rfl

/-- C2 witness: the stale two-turn session; one further turn and one
evidence-merge operation in the trace. -/
theorem C2_witness :
    staleStore "s" = some staleSession
    ∧ (should_end_conversation demoCfg staleStore "s").2 = true
    ∧ TerminalStaySpec demoCfg staleStore "s" [demoMsg]
        [Op.updateIntel "s" [("suspiciousKeywords", ["urgent"])]] :=
  ⟨rfl, by decide,
   C2_terminal_stability demoCfg staleStore "s" staleSession [demoMsg]
     [Op.updateIntel "s" [("suspiciousKeywords", ["urgent"])]] rfl (by decide)⟩

/-- C9: one full `process_message` cycle on a well-formed input records
the actor message as one turn and then, because the orchestrator module
does not bind `datetime` (imported only under the `__main__` guard),
raises `NameError` while building the reply record — the reply turn is
never recorded and the cycle does not complete, contradicting the
no-exceptions claim. -/
theorem C9_process_message_raises_nameerror :
    (process_message defaultCfg c9detect c9act (fun _ => false) "t0"
        emptyStore "s1" demoMsg []).2
      = Except.error "NameError: name datetime is not defined"
    ∧ ((process_message defaultCfg c9detect c9act (fun _ => false) "t0"
        emptyStore "s1" demoMsg []).1 "s1").map (fun s => s.turn_count) = some 1 := by
  constructor
  · rfl
  · decide

end Honeypot
